import Mathlib

/-
Verification of the inventory-consistency core of the shopping-cart
program (src/shopping_cart-1.py).

The embedding is a shallow one: the Python classes Product,
PhysicalProduct, DigitalProduct, CartItem and ShoppingCart become Lean
structures and pure functions, with the mutable object state passed
explicitly.  Python dicts (catalog and cart) are modelled as ordered
association lists with at most one entry per key, exactly as a dict
iterates; dict assignment and pop act on the (unique) matching entry.
A CartItem in the Python source holds a reference to the very Product
object stored in the catalog (cart entries are only ever created from a
successful catalog lookup, and the cart loader drops entries whose
product id is unknown), so stock mutations made through item.product are
modelled as mutations of the catalog entry with the same product id.
Prices are Rat, quantities are Int, and the two persisted JSON files are
carried inside the state as lists of records.
-/

namespace Shop

/-- Product variant: the Python subclassing (base Product,
PhysicalProduct with weight, DigitalProduct with download_link). -/
inductive Variant where
  | base : Variant
  | physical (weight : Rat) : Variant
  | digital (download_link : String) : Variant
deriving DecidableEq, Repr

/-- A Product object: fields set by Product.__init__ (and the subclass
constructors) in the source. -/
structure Product where
  product_id : String
  name : String
  price : Rat
  quantity_available : Int
  variant : Variant
deriving DecidableEq, Repr

/-- Product.__init__ (and the PhysicalProduct / DigitalProduct
constructors): the arguments are stored as given, with no validation of
price or quantity_available. -/
def Product.init (product_id name : String) (price : Rat)
    (quantity_available : Int) (variant : Variant) : Product :=
  ⟨product_id, name, price, quantity_available, variant⟩

/-- The quantity_available property setter: assigns only when the new
value is non-negative, otherwise silently keeps the old state. -/
def Product.set_quantity_available (p : Product) (value : Int) : Product :=
  if 0 ≤ value then { p with quantity_available := value } else p

/-- Product.decrease_quantity: succeeds iff amount is positive and at
most the stock; on failure the product is unchanged. -/
def Product.decrease_quantity (p : Product) (amount : Int) : Bool × Product :=
  if 0 < amount ∧ amount ≤ p.quantity_available then
    (true, { p with quantity_available := p.quantity_available - amount })
  else
    (false, p)

/-- Product.increase_quantity: adds the amount iff it is positive,
otherwise a no-op. -/
def Product.increase_quantity (p : Product) (amount : Int) : Product :=
  if 0 < amount then
    { p with quantity_available := p.quantity_available + amount }
  else
    p

/-- The CartItem quantity property setter: assigns only a non-negative
value, otherwise silently keeps the old quantity. -/
def CartItem.set_quantity (old value : Int) : Int :=
  if 0 ≤ value then value else old

/-- A record of the catalog JSON file, one element of the array written
by _save_catalog and read by _load_catalog.  Reading a key that a dict
lacks raises KeyError in Python, so the keys not always present are
Option valued. -/
structure ProductRecord where
  type : Option String
  product_id : String
  name : String
  price : Rat
  quantity_available : Int
  weight : Option Rat
  download_link : Option String
deriving DecidableEq, Repr

/-- Product.to_dict together with its two overrides: the base class
writes tag "product", PhysicalProduct writes "physical" plus weight,
DigitalProduct writes "digital" plus download_link. -/
def Product.to_dict (p : Product) : ProductRecord :=
  match p.variant with
  | Variant.base =>
      ⟨some "product", p.product_id, p.name, p.price, p.quantity_available,
        none, none⟩
  | Variant.physical w =>
      ⟨some "physical", p.product_id, p.name, p.price, p.quantity_available,
        some w, none⟩
  | Variant.digital d =>
      ⟨some "digital", p.product_id, p.name, p.price, p.quantity_available,
        none, some d⟩

/-- The per-record body of the _load_catalog loop: dispatch on the type
tag; reading an absent key raises KeyError, which the surrounding try
does not catch (it only catches FileNotFoundError), so the load fails. -/
def parseRecord (r : ProductRecord) : Except String Product :=
  match r.type with
  | none => Except.error "KeyError: type"
  | some t =>
    if t = "physical" then
      match r.weight with
      | none => Except.error "KeyError: weight"
      | some w =>
          Except.ok (Product.init r.product_id r.name r.price
            r.quantity_available (Variant.physical w))
    else if t = "digital" then
      match r.download_link with
      | none => Except.error "KeyError: download_link"
      | some d =>
          Except.ok (Product.init r.product_id r.name r.price
            r.quantity_available (Variant.digital d))
    else
      Except.ok (Product.init r.product_id r.name r.price
        r.quantity_available Variant.base)

/-- Dict lookup catalog.get(pid): the first (and, for a real dict, only)
product whose id matches. -/
def catalogGet : List Product → String → Option Product
  | [], _ => none
  | p :: ps, pid => if p.product_id = pid then some p else catalogGet ps pid

/-- In-place mutation of the catalog entry with the given id, modelling
a method call on the shared Product object; a no-op when the id is
absent. -/
def catalogSet : List Product → String → (Product → Product) → List Product
  | [], _, _ => []
  | p :: ps, pid, f =>
      if p.product_id = pid then f p :: ps else p :: catalogSet ps pid f

/-- Dict assignment catalog[p.product_id] = p: replace the matching
entry in place, or append a new one. -/
def catalogInsert : List Product → Product → List Product
  | [], p => [p]
  | q :: qs, p =>
      if q.product_id = p.product_id then p :: qs
      else q :: catalogInsert qs p

/-- The _load_catalog loop: parse each record in order, inserting into
the dict; the first KeyError aborts the load. -/
def loadCatalogAux : List ProductRecord → List Product → Except String (List Product)
  | [], acc => Except.ok acc
  | r :: rs, acc =>
    match parseRecord r with
    | Except.error e => Except.error e
    | Except.ok p => loadCatalogAux rs (catalogInsert acc p)

/-- _load_catalog applied to the records of an existing catalog file. -/
def loadCatalog (rs : List ProductRecord) : Except String (List Product) :=
  loadCatalogAux rs []

/-- _save_catalog: serialize every product in iteration order. -/
def saveCatalog (c : List Product) : List ProductRecord :=
  c.map Product.to_dict

/-- A cart entry or cart-file record: CartItem.to_dict writes exactly
the pair (product_id, quantity), so the in-memory entry and the record
share one representation. -/
def CartItem.to_dict (e : String × Int) : String × Int :=
  (e.1, e.2)

/-- _save_cart_state: serialize every cart entry in iteration order. -/
def saveCartState (items : List (String × Int)) : List (String × Int) :=
  items.map CartItem.to_dict

/-- Cart dict lookup by product id (first, and only, matching entry). -/
def lookupItem : List (String × Int) → String → Option (String × Int)
  | [], _ => none
  | e :: es, pid => if e.1 = pid then some e else lookupItem es pid

/-- Assignment through the CartItem quantity setter on the entry with
the given id: the new value is f applied to the old quantity, and the
setter silently drops a negative result. -/
def itemsModifyQty (f : Int → Int) : List (String × Int) → String → List (String × Int)
  | [], _ => []
  | e :: es, pid =>
      if e.1 = pid then (e.1, CartItem.set_quantity e.2 (f e.2)) :: es
      else e :: itemsModifyQty f es pid

/-- Dict pop of the entry with the given id. -/
def itemsErase : List (String × Int) → String → List (String × Int)
  | [], _ => []
  | e :: es, pid => if e.1 = pid then es else e :: itemsErase es pid

/-- Cart dict assignment items[r.fst] = CartItem(product, r.snd). -/
def cartInsert : List (String × Int) → (String × Int) → List (String × Int)
  | [], e => [e]
  | x :: xs, e => if x.1 = e.1 then e :: xs else x :: cartInsert xs e

/-- The _load_cart_state loop: keep a record only when its product id is
found in the catalog, silently dropping the rest. -/
def loadCartAux (catalog : List Product) :
    List (String × Int) → List (String × Int) → List (String × Int)
  | [], acc => acc
  | r :: rs, acc =>
    match catalogGet catalog r.1 with
    | some _ => loadCartAux catalog rs (cartInsert acc r)
    | none => loadCartAux catalog rs acc

/-- _load_cart_state applied to the records of an existing cart file. -/
def loadCartState (catalog : List Product) (rs : List (String × Int)) :
    List (String × Int) :=
  loadCartAux catalog rs []

/-- The state of a ShoppingCart object together with its two backing
files. -/
structure CartState where
  catalog : List Product
  items : List (String × Int)
  catalogFile : List ProductRecord
  cartFile : List (String × Int)
deriving DecidableEq, Repr

/-- ShoppingCart.add_item: look the product up; require stock at least
the requested quantity; bump or create the cart entry; decrease the
product stock (the boolean result of decrease_quantity is discarded);
persist the cart. -/
def ShoppingCart.add_item (s : CartState) (product_id : String)
    (quantity : Int) : Bool × CartState :=
  match catalogGet s.catalog product_id with
  | none => (false, s)
  | some product =>
    if quantity ≤ product.quantity_available then
      let items1 :=
        match lookupItem s.items product_id with
        | some _ => itemsModifyQty (fun q => q + quantity) s.items product_id
        | none => s.items ++ [(product_id, quantity)]
      let catalog1 := catalogSet s.catalog product_id
        (fun p => (p.decrease_quantity quantity).2)
      (true, { s with catalog := catalog1, items := items1,
                      cartFile := saveCartState items1 })
    else
      (false, s)

/-- ShoppingCart.remove_item: pop the cart entry, return its quantity to
the product stock (a no-op for a non-positive quantity), persist. -/
def ShoppingCart.remove_item (s : CartState) (product_id : String) :
    Bool × CartState :=
  match lookupItem s.items product_id with
  | none => (false, s)
  | some item =>
    let items1 := itemsErase s.items product_id
    let catalog1 := catalogSet s.catalog product_id
      (fun p => p.increase_quantity item.2)
    (true, { s with catalog := catalog1, items := items1,
                    cartFile := saveCartState items1 })

/-- ShoppingCart.update_quantity: diff = new - current; a positive diff
needs that much stock and is taken from it; a negative diff is returned
to stock; diff = 0 falls through both branches and fails.  The entry
quantity is assigned through the setter, so a negative new_quantity is
silently kept out of the entry even though the stock was already
increased. -/
def ShoppingCart.update_quantity (s : CartState) (product_id : String)
    (new_quantity : Int) : Bool × CartState :=
  match lookupItem s.items product_id with
  | none => (false, s)
  | some item =>
    match catalogGet s.catalog product_id with
    | none => (false, s)
    | some product =>
      let diff := new_quantity - item.2
      if 0 < diff ∧ diff ≤ product.quantity_available then
        let catalog1 := catalogSet s.catalog product_id
          (fun p => (p.decrease_quantity diff).2)
        let items1 := itemsModifyQty (fun _ => new_quantity) s.items product_id
        (true, { s with catalog := catalog1, items := items1,
                        cartFile := saveCartState items1 })
      else if diff < 0 then
        let catalog1 := catalogSet s.catalog product_id
          (fun p => p.increase_quantity (-diff))
        let items1 := itemsModifyQty (fun _ => new_quantity) s.items product_id
        (true, { s with catalog := catalog1, items := items1,
                        cartFile := saveCartState items1 })
      else
        (false, s)

/-- CartItem.calculate_subtotal: price of the referenced product times
the entry quantity. -/
def CartItem.calculate_subtotal (catalog : List Product) (e : String × Int) : Rat :=
  match catalogGet catalog e.1 with
  | some p => p.price * (e.2 : Rat)
  | none => 0

/-- ShoppingCart.get_total: sum of the subtotals. -/
def ShoppingCart.get_total (s : CartState) : Rat :=
  (s.items.map (CartItem.calculate_subtotal s.catalog)).sum

/-- The checkout branch of main (menu choice 6): print a fixed message
and leave the loop.  No total is computed, no cart method is called, and
no file is written. -/
def ShoppingCart.checkout (s : CartState) : String × CartState :=
  ("Checkout successful! \nTHANK YOU\nHave a nice day", s)

/-- One user-driven mutating operation on the cart. -/
inductive Op where
  | add (product_id : String) (quantity : Int) : Op
  | remove (product_id : String) : Op
  | update (product_id : String) (new_quantity : Int) : Op
deriving DecidableEq, Repr

/-- The state reached after one operation. -/
def step (s : CartState) (op : Op) : CartState :=
  match op with
  | Op.add pid q => (ShoppingCart.add_item s pid q).2
  | Op.remove pid => (ShoppingCart.remove_item s pid).2
  | Op.update pid n => (ShoppingCart.update_quantity s pid n).2

/-- The state reached after a sequence of operations. -/
def run (s : CartState) (ops : List Op) : CartState :=
  ops.foldl step s

/-- Sum of the cart-entry quantities for one product id. -/
def qtySum : List (String × Int) → String → Int
  | [], _ => 0
  | e :: es, pid => (if e.1 = pid then e.2 else 0) + qtySum es pid

/-- Sum of the cart quantities reserved for a product in a state. -/
def cartQty (s : CartState) (pid : String) : Int :=
  qtySum s.items pid

/-- The stock a catalog list shows for a product id (0 when absent). -/
def stockOf (c : List Product) (pid : String) : Int :=
  match catalogGet c pid with
  | some p => p.quantity_available
  | none => 0

/-- The stock the catalog shows for a product id (0 when absent). -/
def avail (s : CartState) (pid : String) : Int :=
  stockOf s.catalog pid

/-- An operation carrying only non-negative requested quantities. -/
def Op.nonneg : Op → Prop
  | Op.add _ q => 0 ≤ q
  | Op.remove _ => True
  | Op.update _ n => 0 ≤ n

/-- A sample catalog product: id P1, price 10, five in stock. -/
def p1 : Product :=
  Product.init "P1" "Laptop" 10 5 Variant.base

/-- A sample physical product. -/
def pPhys : Product :=
  Product.init "P2" "Chair" 25 4 (Variant.physical 7)

/-- A sample digital product. -/
def pDig : Product :=
  Product.init "P3" "Song" 3 9 (Variant.digital "dl3")

/-- A freshly loaded state: one product, empty cart. -/
def sampleState : CartState :=
  ⟨[p1], [], saveCatalog [p1], []⟩

/-- A state whose cart already reserves two units of P1. -/
def s42 : CartState :=
  ⟨[p1], [("P1", 2)], saveCatalog [p1], [("P1", 2)]⟩

/-- A three-variant catalog for the persistence round trip. -/
def rtCatalog : List Product :=
  [p1, pPhys, pDig]

/-- A cart over rtCatalog for the persistence round trip. -/
def rtItems : List (String × Int) :=
  [("P1", 2), ("P3", 1)]

/-- A catalog record with an unknown type tag. -/
def recUnknown : ProductRecord :=
  ⟨some "mystery", "P9", "Thing", 1, 1, none, none⟩

/-- A catalog record with no type tag at all. -/
def recNoTag : ProductRecord :=
  ⟨none, "P9", "Thing", 1, 1, none, none⟩

/-- A catalog record tagged physical. -/
def recPhys : ProductRecord :=
  ⟨some "physical", "P7", "Desk", 2, 3, some 7, none⟩

/-- A catalog record tagged digital. -/
def recDig : ProductRecord :=
  ⟨some "digital", "P8", "Tune", 3, 4, none, some "dl8"⟩

/-- A product built from malformed arguments: negative price and
negative initial stock. -/
def badProduct : Product :=
  Product.init "X" "N" (-1) (-2) Variant.base

/-
Helper lemmas about the association-list model of the two dicts.
-/

theorem lookupItem_mem {items : List (String × Int)} {pid : String}
    {e : String × Int} (h : lookupItem items pid = some e) :
    e ∈ items ∧ e.1 = pid := by
  induction items with
  | nil => simp [lookupItem] at h
  | cons x xs ih =>
    rw [lookupItem] at h
    by_cases hx : x.1 = pid
    · rw [if_pos hx] at h
      injection h with h
      subst h
      exact ⟨List.mem_cons_self x xs, hx⟩
    · rw [if_neg hx] at h
      rcases ih h with ⟨h1, h2⟩
      exact ⟨List.mem_cons_of_mem x h1, h2⟩

theorem lookupItem_append_of_none {items : List (String × Int)} {pid : String}
    (h : lookupItem items pid = none) (e : String × Int) (he : e.1 = pid) :
    lookupItem (items ++ [e]) pid = some e := by
  induction items with
  | nil => simp [lookupItem, he]
  | cons x xs ih =>
    rw [lookupItem] at h
    by_cases hx : x.1 = pid
    · rw [if_pos hx] at h; cases h
    · rw [if_neg hx] at h
      simpa [lookupItem, hx] using ih h

theorem qtySum_append (l1 l2 : List (String × Int)) (pid : String) :
    qtySum (l1 ++ l2) pid = qtySum l1 pid + qtySum l2 pid := by
  induction l1 with
  | nil => simp [qtySum]
  | cons e es ih => simp [qtySum, ih]; omega

theorem qtySum_modify_self (f : Int → Int) {items : List (String × Int)}
    {pid : String} {e : String × Int} (h : lookupItem items pid = some e) :
    qtySum (itemsModifyQty f items pid) pid
      = qtySum items pid - e.2 + CartItem.set_quantity e.2 (f e.2) := by
  induction items with
  | nil => simp [lookupItem] at h
  | cons x xs ih =>
    rw [lookupItem] at h
    by_cases hx : x.1 = pid
    · rw [if_pos hx] at h
      injection h with h
      subst h
      simp [itemsModifyQty, qtySum, hx]
      try omega
    · rw [if_neg hx] at h
      simp [itemsModifyQty, qtySum, hx, ih h]
      try omega

theorem qtySum_modify_other (f : Int → Int) {items : List (String × Int)}
    {pid P : String} (hne : P ≠ pid) :
    qtySum (itemsModifyQty f items pid) P = qtySum items P := by
  induction items with
  | nil => rfl
  | cons x xs ih =>
    by_cases hx : x.1 = pid
    · simp [itemsModifyQty, qtySum, hx, Ne.symm hne]
    · simp [itemsModifyQty, qtySum, hx, ih]

theorem qtySum_erase_self {items : List (String × Int)} {pid : String}
    {e : String × Int} (h : lookupItem items pid = some e) :
    qtySum (itemsErase items pid) pid = qtySum items pid - e.2 := by
  induction items with
  | nil => simp [lookupItem] at h
  | cons x xs ih =>
    rw [lookupItem] at h
    by_cases hx : x.1 = pid
    · rw [if_pos hx] at h
      injection h with h
      subst h
      simp [itemsErase, qtySum, hx]
      try omega
    · rw [if_neg hx] at h
      simp [itemsErase, qtySum, hx, ih h]
      try omega

theorem qtySum_erase_other {items : List (String × Int)} {pid P : String}
    (hne : P ≠ pid) :
    qtySum (itemsErase items pid) P = qtySum items P := by
  induction items with
  | nil => rfl
  | cons x xs ih =>
    by_cases hx : x.1 = pid
    · simp [itemsErase, qtySum, hx, Ne.symm hne]
    · simp [itemsErase, qtySum, hx, ih]

theorem catalogGet_catalogSet_self {c : List Product} {pid : String}
    {f : Product → Product} (hf : ∀ p, (f p).product_id = p.product_id) :
    catalogGet (catalogSet c pid f) pid = Option.map f (catalogGet c pid) := by
  induction c with
  | nil => rfl
  | cons p ps ih =>
    by_cases hp : p.product_id = pid
    · simp [catalogSet, catalogGet, hp, hf]
    · simp [catalogSet, catalogGet, hp, ih]

theorem catalogGet_catalogSet_other {c : List Product} {pid P : String}
    {f : Product → Product} (hf : ∀ p, (f p).product_id = p.product_id)
    (hne : P ≠ pid) :
    catalogGet (catalogSet c pid f) P = catalogGet c P := by
  induction c with
  | nil => rfl
  | cons p ps ih =>
    by_cases hp : p.product_id = pid
    · simp [catalogSet, catalogGet, hp, hf, Ne.symm hne]
    · simp [catalogSet, catalogGet, hp, ih]

theorem decrease_quantity_id (p : Product) (a : Int) :
    ((p.decrease_quantity a).2).product_id = p.product_id := by
  rw [Product.decrease_quantity]
  split <;> rfl

theorem increase_quantity_id (p : Product) (a : Int) :
    (p.increase_quantity a).product_id = p.product_id := by
  rw [Product.increase_quantity]
  split <;> rfl

theorem decrease_quantity_qa (p : Product) (a : Int) :
    ((p.decrease_quantity a).2).quantity_available
      = if 0 < a ∧ a ≤ p.quantity_available
        then p.quantity_available - a else p.quantity_available := by
  rw [Product.decrease_quantity]
  split <;> simp_all

theorem increase_quantity_qa (p : Product) (a : Int) :
    (p.increase_quantity a).quantity_available
      = if 0 < a then p.quantity_available + a else p.quantity_available := by
  rw [Product.increase_quantity]
  split <;> simp_all

theorem set_quantity_nonneg {old : Int} (h : 0 ≤ old) (v : Int) :
    0 ≤ CartItem.set_quantity old v := by
  rw [CartItem.set_quantity]
  split <;> omega

theorem itemsModifyQty_nonneg (f : Int → Int) {items : List (String × Int)}
    (pid : String) (h : ∀ x ∈ items, 0 ≤ x.2) :
    ∀ x ∈ itemsModifyQty f items pid, 0 ≤ x.2 := by
  induction items with
  | nil => intro x hx; simp [itemsModifyQty] at hx
  | cons e es ih =>
    intro x hx
    by_cases he : e.1 = pid
    · simp [itemsModifyQty, he] at hx
      rcases hx with hx | hx
      · subst hx
        exact set_quantity_nonneg (h e (List.mem_cons_self e es)) _
      · exact h x (List.mem_cons_of_mem e hx)
    · simp [itemsModifyQty, he] at hx
      rcases hx with hx | hx
      · subst hx; exact h x (List.mem_cons_self x es)
      · exact ih (fun y hy => h y (List.mem_cons_of_mem e hy)) x hx

theorem itemsErase_nonneg {items : List (String × Int)} (pid : String)
    (h : ∀ x ∈ items, 0 ≤ x.2) :
    ∀ x ∈ itemsErase items pid, 0 ≤ x.2 := by
  induction items with
  | nil => intro x hx; simp [itemsErase] at hx
  | cons e es ih =>
    intro x hx
    by_cases he : e.1 = pid
    · simp [itemsErase, he] at hx
      exact h x (List.mem_cons_of_mem e hx)
    · simp [itemsErase, he] at hx
      rcases hx with hx | hx
      · subst hx; exact h x (List.mem_cons_self x es)
      · exact ih (fun y hy => h y (List.mem_cons_of_mem e hy)) x hx

theorem catalogSet_nonneg {c : List Product} {pid : String}
    {f : Product → Product}
    (hc : ∀ p ∈ c, 0 ≤ p.quantity_available)
    (hf : ∀ p, 0 ≤ p.quantity_available → 0 ≤ (f p).quantity_available) :
    ∀ p ∈ catalogSet c pid f, 0 ≤ p.quantity_available := by
  induction c with
  | nil => intro p hp; simp [catalogSet] at hp
  | cons q qs ih =>
    intro p hp
    by_cases hq : q.product_id = pid
    · simp [catalogSet, hq] at hp
      rcases hp with hp | hp
      · subst hp; exact hf q (hc q (List.mem_cons_self q qs))
      · exact hc p (List.mem_cons_of_mem q hp)
    · simp [catalogSet, hq] at hp
      rcases hp with hp | hp
      · subst hp; exact hc p (List.mem_cons_self p qs)
      · exact ih (fun y hy => hc y (List.mem_cons_of_mem q hy)) p hp

theorem decrease_quantity_nonneg (p : Product) (a : Int)
    (h : 0 ≤ p.quantity_available) :
    0 ≤ ((p.decrease_quantity a).2).quantity_available := by
  rw [decrease_quantity_qa]
  split <;> omega

theorem increase_quantity_nonneg (p : Product) (a : Int)
    (h : 0 ≤ p.quantity_available) :
    0 ≤ (p.increase_quantity a).quantity_available := by
  rw [increase_quantity_qa]
  split <;> omega

theorem stockOf_eq {c : List Product} {pid : String} {product : Product}
    (hget : catalogGet c pid = some product) :
    stockOf c pid = product.quantity_available := by
  rw [stockOf, hget]

theorem stockOf_set_decrease {c : List Product} {pid : String}
    {product : Product} (hget : catalogGet c pid = some product) (q : Int) :
    stockOf (catalogSet c pid (fun p => (p.decrease_quantity q).2)) pid
      = if 0 < q ∧ q ≤ product.quantity_available
        then product.quantity_available - q
        else product.quantity_available := by
  rw [stockOf, catalogGet_catalogSet_self (fun p => decrease_quantity_id p q),
    hget]
  simp [decrease_quantity_qa]

theorem stockOf_set_increase {c : List Product} {pid : String}
    {product : Product} (hget : catalogGet c pid = some product) (a : Int) :
    stockOf (catalogSet c pid (fun p => p.increase_quantity a)) pid
      = if 0 < a then product.quantity_available + a
        else product.quantity_available := by
  rw [stockOf, catalogGet_catalogSet_self (fun p => increase_quantity_id p a),
    hget]
  simp [increase_quantity_qa]

theorem stockOf_set_other {c : List Product} {pid P : String}
    {f : Product → Product} (hf : ∀ p, (f p).product_id = p.product_id)
    (hne : P ≠ pid) :
    stockOf (catalogSet c pid f) P = stockOf c P := by
  rw [stockOf, catalogGet_catalogSet_other hf hne, stockOf]

theorem catalogGet_catalogSet_isSome {c : List Product} {pid : String}
    (P : String) {f : Product → Product}
    (hf : ∀ p, (f p).product_id = p.product_id) :
    (catalogGet (catalogSet c pid f) P).isSome
      = (catalogGet c P).isSome := by
  by_cases hP : P = pid
  · subst hP
    rw [catalogGet_catalogSet_self hf]
    cases catalogGet c P <;> simp
  · rw [catalogGet_catalogSet_other hf hP]

/-- One operation neither creates nor destroys units of any product: the
quantity reserved in the cart plus the stock still available is
conserved, and cart quantities stay non-negative, provided the operation
carries a non-negative requested quantity. -/
theorem step_conserve (s : CartState) (op : Op) (P : String)
    (hPin : (catalogGet s.catalog P).isSome)
    (hitems : ∀ e ∈ s.items, 0 ≤ e.2) (hop : Op.nonneg op) :
    (cartQty (step s op) P + avail (step s op) P = cartQty s P + avail s P)
    ∧ (∀ e ∈ (step s op).items, 0 ≤ e.2) := by
  cases op with
  | add pid q =>
    have hq0 : 0 ≤ q := hop
    rcases hget : catalogGet s.catalog pid with _ | product
    · have hs : step s (Op.add pid q) = s := by
        simp [step, ShoppingCart.add_item, hget]
      rw [hs]
      exact ⟨rfl, hitems⟩
    · by_cases hq : q ≤ product.quantity_available
      · rcases hlook : lookupItem s.items pid with _ | e
        · have hs : step s (Op.add pid q)
              = { s with
                  catalog := catalogSet s.catalog pid
                    (fun p => (p.decrease_quantity q).2),
                  items := s.items ++ [(pid, q)],
                  cartFile := saveCartState (s.items ++ [(pid, q)]) } := by
            simp [step, ShoppingCart.add_item, hget, hlook, hq]
          rw [hs]
          constructor
          · show qtySum (s.items ++ [(pid, q)]) P
                + stockOf (catalogSet s.catalog pid
                    (fun p => (p.decrease_quantity q).2)) P
              = qtySum s.items P + stockOf s.catalog P
            by_cases hP : P = pid
            · subst hP
              rw [qtySum_append, stockOf_set_decrease hget q,
                stockOf_eq hget]
              simp [qtySum]
              split <;> omega
            · rw [qtySum_append,
                stockOf_set_other (fun p => decrease_quantity_id p q) hP]
              simp [qtySum, Ne.symm hP]
          · intro e he
            rcases List.mem_append.mp he with he | he
            · exact hitems e he
            · simp at he
              subst he
              exact hq0
        · have hs : step s (Op.add pid q)
              = { s with
                  catalog := catalogSet s.catalog pid
                    (fun p => (p.decrease_quantity q).2),
                  items := itemsModifyQty (fun x => x + q) s.items pid,
                  cartFile := saveCartState
                    (itemsModifyQty (fun x => x + q) s.items pid) } := by
            simp [step, ShoppingCart.add_item, hget, hlook, hq]
          rw [hs]
          have he2 : 0 ≤ e.2 := hitems e (lookupItem_mem hlook).1
          constructor
          · show qtySum (itemsModifyQty (fun x => x + q) s.items pid) P
                + stockOf (catalogSet s.catalog pid
                    (fun p => (p.decrease_quantity q).2)) P
              = qtySum s.items P + stockOf s.catalog P
            by_cases hP : P = pid
            · subst hP
              rw [qtySum_modify_self _ hlook, stockOf_set_decrease hget q,
                stockOf_eq hget]
              have hset : CartItem.set_quantity e.2 (e.2 + q) = e.2 + q := by
                rw [CartItem.set_quantity, if_pos (by omega)]
              rw [hset]
              split <;> omega
            · rw [qtySum_modify_other _ hP,
                stockOf_set_other (fun p => decrease_quantity_id p q) hP]
          · exact itemsModifyQty_nonneg _ _ hitems
      · have hs : step s (Op.add pid q) = s := by
          simp [step, ShoppingCart.add_item, hget, hq]
        rw [hs]
        exact ⟨rfl, hitems⟩
  | remove pid =>
    rcases hlook : lookupItem s.items pid with _ | e
    · have hs : step s (Op.remove pid) = s := by
        simp [step, ShoppingCart.remove_item, hlook]
      rw [hs]
      exact ⟨rfl, hitems⟩
    · have hs : step s (Op.remove pid)
          = { s with
              catalog := catalogSet s.catalog pid
                (fun p => p.increase_quantity e.2),
              items := itemsErase s.items pid,
              cartFile := saveCartState (itemsErase s.items pid) } := by
        simp [step, ShoppingCart.remove_item, hlook]
      rw [hs]
      have he2 : 0 ≤ e.2 := hitems e (lookupItem_mem hlook).1
      constructor
      · show qtySum (itemsErase s.items pid) P
            + stockOf (catalogSet s.catalog pid
                (fun p => p.increase_quantity e.2)) P
          = qtySum s.items P + stockOf s.catalog P
        by_cases hP : P = pid
        · subst hP
          rw [qtySum_erase_self hlook]
          rcases hget : catalogGet s.catalog P with _ | product
          · rw [hget] at hPin
            simp at hPin
          · rw [stockOf_set_increase hget e.2, stockOf_eq hget]
            split <;> omega
        · rw [qtySum_erase_other hP,
            stockOf_set_other (fun p => increase_quantity_id p e.2) hP]
      · exact itemsErase_nonneg _ hitems
  | update pid n =>
    have hn0 : 0 ≤ n := hop
    rcases hlook : lookupItem s.items pid with _ | e
    · have hs : step s (Op.update pid n) = s := by
        simp [step, ShoppingCart.update_quantity, hlook]
      rw [hs]
      exact ⟨rfl, hitems⟩
    · rcases hget : catalogGet s.catalog pid with _ | product
      · have hs : step s (Op.update pid n) = s := by
          simp [step, ShoppingCart.update_quantity, hlook, hget]
        rw [hs]
        exact ⟨rfl, hitems⟩
      · have he2 : 0 ≤ e.2 := hitems e (lookupItem_mem hlook).1
        by_cases h1 : 0 < n - e.2 ∧ n - e.2 ≤ product.quantity_available
        · have hs : step s (Op.update pid n)
              = { s with
                  catalog := catalogSet s.catalog pid
                    (fun p => (p.decrease_quantity (n - e.2)).2),
                  items := itemsModifyQty (fun _ => n) s.items pid,
                  cartFile := saveCartState
                    (itemsModifyQty (fun _ => n) s.items pid) } := by
            simp [step, ShoppingCart.update_quantity, hlook, hget, h1]
          rw [hs]
          constructor
          · show qtySum (itemsModifyQty (fun _ => n) s.items pid) P
                + stockOf (catalogSet s.catalog pid
                    (fun p => (p.decrease_quantity (n - e.2)).2)) P
              = qtySum s.items P + stockOf s.catalog P
            by_cases hP : P = pid
            · subst hP
              rw [qtySum_modify_self _ hlook,
                stockOf_set_decrease hget (n - e.2), stockOf_eq hget]
              have hset : CartItem.set_quantity e.2 n = n := by
                rw [CartItem.set_quantity, if_pos hn0]
              rw [hset]
              split <;> omega
            · rw [qtySum_modify_other _ hP,
                stockOf_set_other
                  (fun p => decrease_quantity_id p (n - e.2)) hP]
          · exact itemsModifyQty_nonneg _ _ hitems
        · by_cases h2 : n - e.2 < 0
          · have hs : step s (Op.update pid n)
                = { s with
                    catalog := catalogSet s.catalog pid
                      (fun p => p.increase_quantity (-(n - e.2))),
                    items := itemsModifyQty (fun _ => n) s.items pid,
                    cartFile := saveCartState
                      (itemsModifyQty (fun _ => n) s.items pid) } := by
              simp only [step, ShoppingCart.update_quantity, hlook, hget]
              rw [if_neg h1, if_pos h2]
            rw [hs]
            constructor
            · show qtySum (itemsModifyQty (fun _ => n) s.items pid) P
                  + stockOf (catalogSet s.catalog pid
                      (fun p => p.increase_quantity ( -(n - e.2)))) P
                = qtySum s.items P + stockOf s.catalog P
              by_cases hP : P = pid
              · subst hP
                rw [qtySum_modify_self _ hlook,
                  stockOf_set_increase hget (-(n - e.2)), stockOf_eq hget]
                have hset : CartItem.set_quantity e.2 n = n := by
                  rw [CartItem.set_quantity, if_pos hn0]
                rw [hset]
                split <;> omega
              · rw [qtySum_modify_other _ hP,
                  stockOf_set_other
                    (fun p => increase_quantity_id p (-(n - e.2))) hP]
            · exact itemsModifyQty_nonneg _ _ hitems
          · have hs : step s (Op.update pid n) = s := by
              simp only [step, ShoppingCart.update_quantity, hlook, hget]
              rw [if_neg h1, if_neg h2]
            rw [hs]
            exact ⟨rfl, hitems⟩

/-- Every operation leaves the catalog either untouched or rewritten
through one id-preserving in-place update. -/
theorem step_catalog_shape (s : CartState) (op : Op) :
    (step s op).catalog = s.catalog
    ∨ ∃ pid f, (∀ p : Product, (f p).product_id = p.product_id)
        ∧ (∀ p : Product, 0 ≤ p.quantity_available →
            0 ≤ (f p).quantity_available)
        ∧ (step s op).catalog = catalogSet s.catalog pid f := by
  cases op with
  | add pid q =>
    rcases hget : catalogGet s.catalog pid with _ | product
    · left
      simp [step, ShoppingCart.add_item, hget]
    · by_cases hq : q ≤ product.quantity_available
      · right
        refine ⟨pid, fun p => (p.decrease_quantity q).2,
          fun p => decrease_quantity_id p q,
          fun p hp => decrease_quantity_nonneg p q hp, ?_⟩
        rcases hlook : lookupItem s.items pid with _ | e <;>
          simp [step, ShoppingCart.add_item, hget, hlook, hq]
      · left
        simp [step, ShoppingCart.add_item, hget, hq]
  | remove pid =>
    rcases hlook : lookupItem s.items pid with _ | e
    · left
      simp [step, ShoppingCart.remove_item, hlook]
    · right
      refine ⟨pid, fun p => p.increase_quantity e.2,
        fun p => increase_quantity_id p e.2,
        fun p hp => increase_quantity_nonneg p e.2 hp, ?_⟩
      simp [step, ShoppingCart.remove_item, hlook]
  | update pid n =>
    rcases hlook : lookupItem s.items pid with _ | e
    · left
      simp [step, ShoppingCart.update_quantity, hlook]
    · rcases hget : catalogGet s.catalog pid with _ | product
      · left
        simp [step, ShoppingCart.update_quantity, hlook, hget]
      · by_cases h1 : 0 < n - e.2 ∧ n - e.2 ≤ product.quantity_available
        · right
          refine ⟨pid, fun p => (p.decrease_quantity (n - e.2)).2,
            fun p => decrease_quantity_id p (n - e.2),
            fun p hp => decrease_quantity_nonneg p (n - e.2) hp, ?_⟩
          simp [step, ShoppingCart.update_quantity, hlook, hget, h1]
        · by_cases h2 : n - e.2 < 0
          · right
            refine ⟨pid, fun p => p.increase_quantity (-(n - e.2)),
              fun p => increase_quantity_id p (-(n - e.2)),
              fun p hp => increase_quantity_nonneg p (-(n - e.2)) hp, ?_⟩
            simp only [step, ShoppingCart.update_quantity, hlook, hget]
            rw [if_neg h1, if_pos h2]
          · left
            simp only [step, ShoppingCart.update_quantity, hlook, hget]
            rw [if_neg h1, if_neg h2]

/-- An operation never adds or removes catalog ids. -/
theorem step_get_isSome (s : CartState) (op : Op) (P : String) :
    (catalogGet (step s op).catalog P).isSome
      = (catalogGet s.catalog P).isSome := by
  rcases step_catalog_shape s op with h | ⟨pid, f, hf, hfn, h⟩
  · rw [h]
  · rw [h, catalogGet_catalogSet_isSome P hf]

theorem lookupItem_modify (f : Int → Int) {items : List (String × Int)}
    {pid : String} {e : String × Int} (h : lookupItem items pid = some e) :
    lookupItem (itemsModifyQty f items pid) pid
      = some (e.1, CartItem.set_quantity e.2 (f e.2)) := by
  induction items with
  | nil => simp [lookupItem] at h
  | cons x xs ih =>
    rw [lookupItem] at h
    by_cases hx : x.1 = pid
    · rw [if_pos hx] at h
      injection h with h
      subst h
      simp [itemsModifyQty, lookupItem, hx]
    · rw [if_neg hx] at h
      simp [itemsModifyQty, lookupItem, hx, ih h]

/-
Lemmas for the save and reload round trip.
-/

theorem parse_to_dict (p : Product) :
    parseRecord (Product.to_dict p) = Except.ok p := by
  rcases p with ⟨pid, nm, pr, qa, v⟩
  cases v <;> rfl

theorem loadCatalogAux_map (l acc : List Product) :
    loadCatalogAux (l.map Product.to_dict) acc
      = Except.ok (List.foldl catalogInsert acc l) := by
  induction l generalizing acc with
  | nil => rfl
  | cons p ps ih =>
    simp only [List.map_cons, loadCatalogAux, parse_to_dict, List.foldl_cons]
    exact ih _

theorem catalogInsert_append {acc : List Product} {p : Product}
    (h : ∀ q ∈ acc, q.product_id ≠ p.product_id) :
    catalogInsert acc p = acc ++ [p] := by
  induction acc with
  | nil => rfl
  | cons q qs ih =>
    have hq : q.product_id ≠ p.product_id := h q (List.mem_cons_self q qs)
    simp only [catalogInsert, if_neg hq, List.cons_append]
    rw [ih (fun y hy => h y (List.mem_cons_of_mem q hy))]

theorem foldl_catalogInsert {l acc : List Product}
    (h : ((acc ++ l).map Product.product_id).Nodup) :
    List.foldl catalogInsert acc l = acc ++ l := by
  induction l generalizing acc with
  | nil => simp
  | cons p ps ih =>
    have h1 : ∀ q ∈ acc, q.product_id ≠ p.product_id := by
      intro q hq hc
      rw [List.map_append, List.nodup_append] at h
      exact h.2.2 (List.mem_map_of_mem Product.product_id hq)
        (by simp [hc])
    rw [List.foldl_cons, catalogInsert_append h1]
    have h2 : (((acc ++ [p]) ++ ps).map Product.product_id).Nodup := by
      rw [List.append_assoc]
      simpa using h
    rw [ih h2, List.append_assoc]
    rfl

theorem cartInsert_append {acc : List (String × Int)} {e : String × Int}
    (h : ∀ x ∈ acc, x.1 ≠ e.1) :
    cartInsert acc e = acc ++ [e] := by
  induction acc with
  | nil => rfl
  | cons x xs ih =>
    have hx : x.1 ≠ e.1 := h x (List.mem_cons_self x xs)
    simp only [cartInsert, if_neg hx, List.cons_append]
    rw [ih (fun y hy => h y (List.mem_cons_of_mem x hy))]

theorem foldl_cartInsert {l acc : List (String × Int)}
    (h : ((acc ++ l).map Prod.fst).Nodup) :
    List.foldl cartInsert acc l = acc ++ l := by
  induction l generalizing acc with
  | nil => simp
  | cons e es ih =>
    have h1 : ∀ x ∈ acc, x.1 ≠ e.1 := by
      intro x hx hc
      rw [List.map_append, List.nodup_append] at h
      exact h.2.2 (List.mem_map_of_mem Prod.fst hx) (by simp [hc])
    rw [List.foldl_cons, cartInsert_append h1]
    have h2 : (((acc ++ [e]) ++ es).map Prod.fst).Nodup := by
      rw [List.append_assoc]
      simpa using h
    rw [ih h2, List.append_assoc]
    rfl

theorem loadCartAux_all_known {catalog : List Product}
    {l acc : List (String × Int)}
    (hknown : ∀ e ∈ l, (catalogGet catalog e.1).isSome) :
    loadCartAux catalog l acc = List.foldl cartInsert acc l := by
  induction l generalizing acc with
  | nil => rfl
  | cons r rs ih =>
    rcases hr : catalogGet catalog r.1 with _ | p
    · have := hknown r (List.mem_cons_self r rs)
      rw [hr] at this
      simp at this
    · simp only [loadCartAux, hr, List.foldl_cons]
      exact ih (fun e he => hknown e (List.mem_cons_of_mem r he))

theorem saveCartState_id (items : List (String × Int)) :
    saveCartState items = items := by
  induction items with
  | nil => rfl
  | cons e es ih =>
    show CartItem.to_dict e :: saveCartState es = e :: es
    rw [ih]
    rfl

/-
The claims.
-/

/-- C1: the claim that for every product P and for ALL sequences of
add_item, remove_item and update_quantity operations the sum of cart
quantities for P plus the available stock equals the stock at catalog
load time is false: a single add_item of a negative quantity passes the
stock check (stock is at least any negative number), creates a cart
entry with the negative quantity, and leaves the stock untouched because
decrease_quantity rejects non-positive amounts.  Starting from a freshly
loaded state with stock 5 and an empty cart, the conserved total drops
from 5 to 3. -/
theorem C1_counterexample :
    cartQty (run sampleState [Op.add "P1" (-2)]) "P1"
        + avail (run sampleState [Op.add "P1" (-2)]) "P1" = 3
    ∧ cartQty sampleState "P1" + avail sampleState "P1" = 5 := by
  constructor <;> rfl

/-- C1 (amended): closed inventory holds for every product id present in
the catalog and every sequence of operations whose add_item quantities
and update_quantity new quantities are non-negative, starting from a
state whose cart quantities are non-negative: the sum of the cart
quantities for P plus the available stock of P is conserved, hence stays
equal to the quantity available at load time whenever the cart starts
empty. -/
theorem C1_closed_inventory (ops : List Op) (P : String) (s : CartState)
    (hPin : (catalogGet s.catalog P).isSome)
    (hitems : ∀ e ∈ s.items, 0 ≤ e.2)
    (hops : ∀ op ∈ ops, Op.nonneg op) :
    cartQty (run s ops) P + avail (run s ops) P
      = cartQty s P + avail s P := by
  induction ops generalizing s with
  | nil => rfl
  | cons op rest ih =>
    have hstep := step_conserve s op P hPin hitems
      (hops op (List.mem_cons_self op rest))
    have hPin2 : (catalogGet (step s op).catalog P).isSome := by
      rw [step_get_isSome]
      exact hPin
    have hrest : ∀ o ∈ rest, Op.nonneg o :=
      fun o ho => hops o (List.mem_cons_of_mem op ho)
    have hrun : run s (op :: rest) = run (step s op) rest := rfl
    rw [hrun, ih (step s op) hPin2 hstep.2 hrest, hstep.1]

/-- Witness for C1: a concrete add, update, remove sequence against a
one-product catalog conserves the inventory total. -/
theorem C1_witness :
    cartQty (run sampleState [Op.add "P1" 3, Op.update "P1" 1, Op.remove "P1"]) "P1"
        + avail (run sampleState [Op.add "P1" 3, Op.update "P1" 1, Op.remove "P1"]) "P1"
      = cartQty sampleState "P1" + avail sampleState "P1" :=
  C1_closed_inventory [Op.add "P1" 3, Op.update "P1" 1, Op.remove "P1"] "P1"
    sampleState rfl (by decide)
    (by intro op hop; fin_cases hop <;> simp [Op.nonneg])

/-- C2: starting from a catalog whose stocks are all non-negative, no
operation drives any stock below zero, and an attempt that would (an
add_item or a stock-increasing update_quantity asking for more than the
available stock) returns failure and leaves the whole state, catalog and
cart alike, unchanged. -/
theorem C2_no_negative_stock (s : CartState)
    (hcat : ∀ p ∈ s.catalog, 0 ≤ p.quantity_available) :
    (∀ op : Op, ∀ p ∈ (step s op).catalog, 0 ≤ p.quantity_available)
    ∧ (∀ pid q product, catalogGet s.catalog pid = some product →
        product.quantity_available < q →
        ShoppingCart.add_item s pid q = (false, s))
    ∧ (∀ pid n e product, lookupItem s.items pid = some e →
        catalogGet s.catalog pid = some product →
        e.2 < n → product.quantity_available < n - e.2 →
        ShoppingCart.update_quantity s pid n = (false, s)) := by
  refine ⟨?_, ?_, ?_⟩
  · intro op p hp
    rcases step_catalog_shape s op with h | ⟨pid, f, hf, hfn, h⟩
    · rw [h] at hp
      exact hcat p hp
    · rw [h] at hp
      exact catalogSet_nonneg hcat hfn p hp
  · intro pid q product hget hlt
    simp only [ShoppingCart.add_item, hget]
    rw [if_neg (by omega)]
  · intro pid n e product hlook hget hlt hstock
    simp only [ShoppingCart.update_quantity, hlook, hget]
    rw [if_neg (by omega), if_neg (by omega)]

/-- Witness for C2: with five in stock, adding two keeps every stock
non-negative, and asking for ten fails leaving the state unchanged. -/
theorem C2_witness :
    (∀ p ∈ (step sampleState (Op.add "P1" 2)).catalog,
      0 ≤ p.quantity_available)
    ∧ ShoppingCart.add_item sampleState "P1" 10 = (false, sampleState) :=
  ⟨(C2_no_negative_stock sampleState (by decide)).1 (Op.add "P1" 2),
    (C2_no_negative_stock sampleState (by decide)).2.1 "P1" 10 p1 rfl
      (by decide)⟩

/-- C3: the claim that add_item rejects every non-positive quantity
before the stock check is wrong about this code: the only guard is
quantity_available at least quantity, which every non-positive quantity
passes, so add_item returns success, records the non-positive quantity
in the cart, rewrites the cart file, and leaves the stock untouched
(decrease_quantity ignores non-positive amounts).  Evaluated here at
quantity 0 and quantity -2 against a product with stock 5. -/
theorem C3_nonpositive_add_accepted :
    (ShoppingCart.add_item sampleState "P1" 0).1 = true
    ∧ (ShoppingCart.add_item sampleState "P1" 0).2.items = [("P1", 0)]
    ∧ (ShoppingCart.add_item sampleState "P1" (-2)).1 = true
    ∧ (ShoppingCart.add_item sampleState "P1" (-2)).2.items = [("P1", -2)]
    ∧ avail (ShoppingCart.add_item sampleState "P1" (-2)).2 "P1" = 5 := by
  refine ⟨rfl, rfl, rfl, rfl, rfl⟩

/-- C4: the claim that update_quantity succeeds whenever the requested
change is non-positive fails at new_quantity equal to the current
quantity: diff = 0 falls through both the positive and the negative
branch and the call returns failure, leaving the state unchanged, where
the claim promises a successful no-op.  Here the entry holds 2 and the
update asks for 2. -/
theorem C4_counterexample :
    ShoppingCart.update_quantity s42 "P1" 2 = (false, s42) := by
  rfl

/-- C4 (amended): for a cart entry holding q and a non-negative
new_quantity strictly below q, update_quantity returns success,
increases the stock by q - new_quantity, and sets the entry to
new_quantity; in particular new_quantity = 0 succeeds and the
zero-quantity entry stays in the cart; but new_quantity = q returns
failure and changes nothing. -/
theorem C4_update_quantity (s : CartState) (pid : String) (q n : Int)
    (product : Product)
    (hlook : lookupItem s.items pid = some (pid, q))
    (hget : catalogGet s.catalog pid = some product)
    (hn : 0 ≤ n) :
    (n < q →
      (ShoppingCart.update_quantity s pid n).1 = true
      ∧ avail (ShoppingCart.update_quantity s pid n).2 pid
          = product.quantity_available + (q - n)
      ∧ lookupItem (ShoppingCart.update_quantity s pid n).2.items pid
          = some (pid, n))
    ∧ (n = q → ShoppingCart.update_quantity s pid n = (false, s)) := by
  constructor
  · intro hlt
    have hs : ShoppingCart.update_quantity s pid n
        = (true, { s with
            catalog := catalogSet s.catalog pid
              (fun p => p.increase_quantity (-(n - q))),
            items := itemsModifyQty (fun _ => n) s.items pid,
            cartFile := saveCartState
              (itemsModifyQty (fun _ => n) s.items pid) }) := by
      simp only [ShoppingCart.update_quantity, hlook, hget]
      rw [if_neg (by omega), if_pos (by omega)]
    rw [hs]
    refine ⟨rfl, ?_, ?_⟩
    · show stockOf (catalogSet s.catalog pid
          (fun p => p.increase_quantity (-(n - q)))) pid
        = product.quantity_available + (q - n)
      rw [stockOf_set_increase hget, if_pos (by omega)]
      omega
    · show lookupItem (itemsModifyQty (fun _ => n) s.items pid) pid
        = some (pid, n)
      rw [lookupItem_modify _ hlook]
      simp [CartItem.set_quantity, hn]
  · intro he
    subst he
    simp only [ShoppingCart.update_quantity, hlook, hget]
    rw [if_neg (by omega), if_neg (by omega)]

/-- Witness for C4: the cart holds 2 units of P1 with 5 in stock;
updating to 0 succeeds, raises the stock to 7, and leaves a
zero-quantity entry in the cart. -/
theorem C4_witness :
    (ShoppingCart.update_quantity s42 "P1" 0).1 = true
    ∧ avail (ShoppingCart.update_quantity s42 "P1" 0).2 "P1"
        = p1.quantity_available + (2 - 0)
    ∧ lookupItem (ShoppingCart.update_quantity s42 "P1" 0).2.items "P1"
        = some ("P1", 0) :=
  (C4_update_quantity s42 "P1" 2 0 p1 rfl rfl (by norm_num)).1 (by norm_num)

/-- C5: the claim that checkout computes and reports the cart total and
removes every entry from the cart is wrong about this code: the checkout
menu branch only prints a fixed farewell string and exits the loop, so
after checkout the cart still holds its entries.  Here a cart holding
two units of P1 is left exactly as it was. -/
theorem C5_counterexample :
    (ShoppingCart.checkout s42).2.items = [("P1", 2)]
    ∧ [("P1", 2)] ≠ ([] : List (String × Int)) := by
  exact ⟨rfl, by decide⟩

/-- C5 (amended): checkout reports a fixed thank-you message and leaves
the whole state, cart entries, catalog stocks and both files, unchanged:
no total is computed, nothing is cleared, and no reserved stock is
returned. -/
theorem C5_checkout (s : CartState) :
    (ShoppingCart.checkout s).2 = s
    ∧ (ShoppingCart.checkout s).1
        = "Checkout successful! \nTHANK YOU\nHave a nice day" :=
  ⟨rfl, rfl⟩

/-- C6: when a product has no cart entry yet, a successful
add_item(p, q) followed by remove_item(p) restores the available stock
of p to its value before the add: the add either moves q units from
stock to cart (q positive) or moves nothing (decrease_quantity rejects
non-positive q), and the remove hands the full recorded quantity back
through increase_quantity with the same guard. -/
theorem C6_add_remove_inverse (s : CartState) (pid : String) (q : Int)
    (product : Product)
    (hlook : lookupItem s.items pid = none)
    (hget : catalogGet s.catalog pid = some product)
    (hsucc : (ShoppingCart.add_item s pid q).1 = true) :
    avail (ShoppingCart.remove_item
        (ShoppingCart.add_item s pid q).2 pid).2 pid
      = product.quantity_available := by
  have hq : q ≤ product.quantity_available := by
    by_contra hq
    have hfail : (ShoppingCart.add_item s pid q).1 = false := by
      simp only [ShoppingCart.add_item, hget]
      rw [if_neg hq]
    rw [hfail] at hsucc
    cases hsucc
  have hs1 : (ShoppingCart.add_item s pid q).2
      = { s with
          catalog := catalogSet s.catalog pid
            (fun p => (p.decrease_quantity q).2),
          items := s.items ++ [(pid, q)],
          cartFile := saveCartState (s.items ++ [(pid, q)]) } := by
    simp only [ShoppingCart.add_item, hget, hlook]
    rw [if_pos hq]
  rw [hs1]
  have hlook2 : lookupItem (s.items ++ [(pid, q)]) pid = some (pid, q) :=
    lookupItem_append_of_none hlook (pid, q) rfl
  simp only [ShoppingCart.remove_item, hlook2]
  show stockOf (catalogSet
      (catalogSet s.catalog pid (fun p => (p.decrease_quantity q).2))
      pid (fun p => p.increase_quantity q)) pid
    = product.quantity_available
  have hget1 : catalogGet
      (catalogSet s.catalog pid (fun p => (p.decrease_quantity q).2)) pid
      = some ((product.decrease_quantity q).2) := by
    rw [catalogGet_catalogSet_self (fun p => decrease_quantity_id p q), hget]
    rfl
  rw [stockOf_set_increase hget1, decrease_quantity_qa]
  split_ifs <;> omega

/-- Witness for C6: adding three units of P1 to an empty cart and
removing them again restores the original stock of five. -/
theorem C6_witness :
    avail (ShoppingCart.remove_item
        (ShoppingCart.add_item sampleState "P1" 3).2 "P1").2 "P1"
      = p1.quantity_available :=
  C6_add_remove_inverse sampleState "P1" 3 p1 rfl rfl rfl

/-- C7: saving the catalog and the cart and reloading them restores the
exact pre-save catalog and cart, ids, variants, names, prices, stocks
and cart quantities included.  The dict origin of both mappings supplies
the pairwise distinct keys, and every reachable cart only references
catalog products (entries are created from successful lookups and the
loader drops unknown ids), giving the two side conditions. -/
theorem C7_roundtrip (catalog : List Product) (items : List (String × Int))
    (hc : (catalog.map Product.product_id).Nodup)
    (hi : (items.map Prod.fst).Nodup)
    (hknown : ∀ e ∈ items, (catalogGet catalog e.1).isSome) :
    loadCatalog (saveCatalog catalog) = Except.ok catalog
    ∧ loadCartState catalog (saveCartState items) = items := by
  constructor
  · rw [loadCatalog, saveCatalog, loadCatalogAux_map,
      foldl_catalogInsert (by simpa using hc)]
    rfl
  · rw [loadCartState, saveCartState_id,
      loadCartAux_all_known hknown,
      foldl_cartInsert (by simpa using hi)]
    rfl

/-- Witness for C7: a catalog holding one product of each variant and a
two-entry cart survive the save and reload round trip unchanged. -/
theorem C7_witness :
    loadCatalog (saveCatalog rtCatalog) = Except.ok rtCatalog
    ∧ loadCartState rtCatalog (saveCartState rtItems) = rtItems :=
  C7_roundtrip rtCatalog rtItems (by decide) (by decide) (by decide)

/-- C8: the claim that a record with a MISSING type tag yields the base
Product variant is wrong about this code: reading the absent key raises
KeyError, which the load only protects against FileNotFoundError, so
the whole catalog load fails instead of defaulting. -/
theorem C8_counterexample :
    loadCatalog [recNoTag] = Except.error "KeyError: type" := by
  rfl

/-- C8 (amended): catalog load dispatches on the type tag, rebuilding
PhysicalProduct from tag physical and DigitalProduct from tag digital;
any other PRESENT tag falls back to the base Product variant; a record
with no type tag makes the load fail with a KeyError instead of
defaulting. -/
theorem C8_tag_dispatch (r : ProductRecord) :
    (r.type = none → parseRecord r = Except.error "KeyError: type")
    ∧ (∀ t, r.type = some t → t ≠ "physical" → t ≠ "digital" →
        parseRecord r = Except.ok (Product.init r.product_id r.name r.price
          r.quantity_available Variant.base))
    ∧ (∀ w, r.type = some "physical" → r.weight = some w →
        parseRecord r = Except.ok (Product.init r.product_id r.name r.price
          r.quantity_available (Variant.physical w)))
    ∧ (∀ d, r.type = some "digital" → r.download_link = some d →
        parseRecord r = Except.ok (Product.init r.product_id r.name r.price
          r.quantity_available (Variant.digital d))) := by
  refine ⟨?_, ?_, ?_, ?_⟩
  · intro h
    simp only [parseRecord, h]
  · intro t ht h1 h2
    simp only [parseRecord, ht]
    rw [if_neg h1, if_neg h2]
  · intro w ht hw
    simp only [parseRecord, ht]
    rw [if_pos trivial, hw]
  · intro d ht hd
    simp only [parseRecord, ht]
    rw [if_neg (by decide), if_pos trivial, hd]

/-- Witness for C8: an unknown tag gives the base variant, the physical
and digital tags rebuild their variants. -/
theorem C8_witness :
    parseRecord recUnknown
      = Except.ok (Product.init "P9" "Thing" 1 1 Variant.base)
    ∧ parseRecord recPhys
      = Except.ok (Product.init "P7" "Desk" 2 3 (Variant.physical 7))
    ∧ parseRecord recDig
      = Except.ok (Product.init "P8" "Tune" 3 4 (Variant.digital "dl8")) :=
  ⟨(C8_tag_dispatch recUnknown).2.1 "mystery" rfl (by decide) (by decide),
    (C8_tag_dispatch recPhys).2.2.1 7 rfl rfl,
    (C8_tag_dispatch recDig).2.2.2 "dl8" rfl rfl⟩

/-- C9: the claim that constructing a Product with a negative price or a
negative initial quantity fails is wrong about this code: the
constructors store their arguments without any validation, so a product
with price -1 and stock -2 is created, refuting the promised price
non-negativity of constructed products. -/
theorem C9_counterexample :
    badProduct.price = -1
    ∧ badProduct.price < 0
    ∧ badProduct.quantity_available = -2 := by
  refine ⟨rfl, by norm_num [badProduct, Product.init], rfl⟩

/-- C9 (amended): Product construction performs no validation at all:
whatever price and initial quantity are supplied, negative ones
included, construction succeeds and stores them unchanged. -/
theorem C9_no_validation (pid nm : String) (pr : Rat) (qa : Int)
    (v : Variant) :
    (Product.init pid nm pr qa v).price = pr
    ∧ (Product.init pid nm pr qa v).quantity_available = qa :=
  ⟨rfl, rfl⟩

/-- C10: no cart operation ever touches the catalog file: add_item,
remove_item and update_quantity rewrite only the cart file (get_total
and the display helpers are read-only by construction and _save_catalog
has no caller), so stock changes live only in memory. -/
theorem C10_catalog_file_frame (s : CartState) (op : Op) :
    (step s op).catalogFile = s.catalogFile := by
  cases op with
  | add pid q =>
    rcases hget : catalogGet s.catalog pid with _ | product
    · simp [step, ShoppingCart.add_item, hget]
    · rcases hlook : lookupItem s.items pid with _ | e <;>
        by_cases hq : q ≤ product.quantity_available <;>
          simp [step, ShoppingCart.add_item, hget, hlook, hq]
  | remove pid =>
    rcases hlook : lookupItem s.items pid with _ | e <;>
      simp [step, ShoppingCart.remove_item, hlook]
  | update pid n =>
    rcases hlook : lookupItem s.items pid with _ | e
    · simp [step, ShoppingCart.update_quantity, hlook]
    · rcases hget : catalogGet s.catalog pid with _ | product
      · simp [step, ShoppingCart.update_quantity, hlook, hget]
      · by_cases h1 : 0 < n - e.2 ∧ n - e.2 ≤ product.quantity_available
        · simp [step, ShoppingCart.update_quantity, hlook, hget, h1]
        · by_cases h2 : n - e.2 < 0
          · simp only [step, ShoppingCart.update_quantity, hlook, hget]
            rw [if_neg h1, if_pos h2]
          · simp only [step, ShoppingCart.update_quantity, hlook, hget]
            rw [if_neg h1, if_neg h2]

end Shop
